import Mathlib

set_option autoImplicit false
set_option maxRecDepth 100000

/-!
Verification development for the job-scraper repository.

The repository has three Python scripts:
* `multi_board_scraper.py` — class `MultiJobBoardAgent`: a SQLite-backed
  orchestrator (`run_daily_scrape`) that fans out to five job-board adapters
  (`scrape_jsearch`, `scrape_adzuna`, `scrape_google_jobs`, `scrape_usa_jobs`,
  `scrape_remotive`), deduplicates by an MD5 digest of title+company+source
  (`_generate_job_id`, `is_duplicate`), persists rows (`save_job`) and appends
  one run record per invocation.
* `combined_scraper.py` — class `CombinedJobScraper`: Muse + Adzuna scraping
  (`scrape_muse`, `scrape_adzuna`), a combine step that deduplicates on a
  lower-cased `title_company` key (`scrape_all`), and a keyword filter
  (`filter_and_save`).
* `job_scraper.py` — a flat script with its own Adzuna and Muse parsing
  (description truncated to 300 characters) and the same `title_company`
  deduplication.

Python strings are embedded as `List Char` (sequences of code points), so
slicing `s[:n]` is `List.take n` and `str.lower()` is a character map.
`hashlib.md5(...).hexdigest()` is embedded by a full MD5 implementation over
byte lists (`Nat` arithmetic mod 2^32), with the UTF-8 encoding performed by
`utf8Encode` mirroring Python `str.encode()`.
-/

/-- Python strings are sequences of Unicode code points; we embed them as
character lists. -/
abbrev Str : Type := List Char

/-- Embed a Lean string literal as a `Str`. -/
def str (s : String) : Str := s.data

/-- Python `str.lower()` restricted to ASCII case mapping (every string the
source ever lower-cases in the scenarios at issue is ASCII). -/
def lower (s : Str) : Str := s.map Char.toLower

/-- Check whether `needle` is an initial segment of `hay`. -/
def leadsWith : Str → Str → Bool
  | [], _ => true
  | _ :: _, [] => false
  | c :: ns, h :: hs => c == h && leadsWith ns hs

/-- Python substring containment `needle in hay`. -/
def containsStr (needle : Str) : Str → Bool
  | [] => needle.isEmpty
  | c :: hs => leadsWith needle (c :: hs) || containsStr needle hs

/-- Propositional form of substring containment. -/
def ContainsSub (hay needle : Str) : Prop :=
  ∃ pre post, hay = pre ++ needle ++ post

/-- Python `str.encode()`: UTF-8 bytes of one code point. -/
def utf8Char (c : Char) : List Nat :=
  let n := c.toNat
  if n < 128 then [n]
  else if n < 2048 then [192 + n / 64, 128 + n % 64]
  else if n < 65536 then [224 + n / 4096, 128 + n / 64 % 64, 128 + n % 64]
  else [240 + n / 262144, 128 + n / 4096 % 64, 128 + n / 64 % 64, 128 + n % 64]

/-- Python `str.encode()`: UTF-8 byte sequence of a string. -/
def utf8Encode (s : Str) : List Nat := (s.map utf8Char).flatten

namespace MD5

/-- Arithmetic is on 32-bit words represented as `Nat` values below `2 ^ 32`. -/
def M32 : Nat := 4294967296

/-- Addition modulo `2 ^ 32`. -/
def add32 (a b : Nat) : Nat := (a + b) % M32

/-- Bitwise complement within 32 bits (arguments are kept below `2 ^ 32`). -/
def not32 (a : Nat) : Nat := 4294967295 - a

/-- Left rotation of a 32-bit word by `s` places. -/
def rotl32 (x s : Nat) : Nat := (x * 2 ^ s) % M32 + x / 2 ^ (32 - s)

/-- Per-round additive constants of RFC 1321 (`floor(2^32 * abs(sin(i+1)))`). -/
def K : List Nat :=
  [0xd76aa478, 0xe8c7b756, 0x242070db, 0xc1bdceee,
   0xf57c0faf, 0x4787c62a, 0xa8304613, 0xfd469501,
   0x698098d8, 0x8b44f7af, 0xffff5bb1, 0x895cd7be,
   0x6b901122, 0xfd987193, 0xa679438e, 0x49b40821,
   0xf61e2562, 0xc040b340, 0x265e5a51, 0xe9b6c7aa,
   0xd62f105d, 0x02441453, 0xd8a1e681, 0xe7d3fbc8,
   0x21e1cde6, 0xc33707d6, 0xf4d50d87, 0x455a14ed,
   0xa9e3e905, 0xfcefa3f8, 0x676f02d9, 0x8d2a4c8a,
   0xfffa3942, 0x8771f681, 0x6d9d6122, 0xfde5380c,
   0xa4beea44, 0x4bdecfa9, 0xf6bb4b60, 0xbebfbc70,
   0x289b7ec6, 0xeaa127fa, 0xd4ef3085, 0x04881d05,
   0xd9d4d039, 0xe6db99e5, 0x1fa27cf8, 0xc4ac5665,
   0xf4292244, 0x432aff97, 0xab9423a7, 0xfc93a039,
   0x655b59c3, 0x8f0ccc92, 0xffeff47d, 0x85845dd1,
   0x6fa87e4f, 0xfe2ce6e0, 0xa3014314, 0x4e0811a1,
   0xf7537e82, 0xbd3af235, 0x2ad7d2bb, 0xeb86d391]

/-- Per-round left-rotation amounts of RFC 1321. -/
def S : List Nat :=
  [7, 12, 17, 22, 7, 12, 17, 22, 7, 12, 17, 22, 7, 12, 17, 22,
   5, 9, 14, 20, 5, 9, 14, 20, 5, 9, 14, 20, 5, 9, 14, 20,
   4, 11, 16, 23, 4, 11, 16, 23, 4, 11, 16, 23, 4, 11, 16, 23,
   6, 10, 15, 21, 6, 10, 15, 21, 6, 10, 15, 21, 6, 10, 15, 21]

/-- Round function of step `i` applied to words `b`, `c`, `d`. -/
def roundFun (i b c d : Nat) : Nat :=
  if i < 16 then Nat.lor (Nat.land b c) (Nat.land (not32 b) d)
  else if i < 32 then Nat.lor (Nat.land d b) (Nat.land (not32 d) c)
  else if i < 48 then Nat.xor b (Nat.xor c d)
  else Nat.xor c (Nat.lor b (not32 d))

/-- Message-word index consumed by step `i`. -/
def gIdx (i : Nat) : Nat :=
  if i < 16 then i
  else if i < 32 then (5 * i + 1) % 16
  else if i < 48 then (3 * i + 5) % 16
  else (7 * i) % 16

/-- One of the 64 steps of a block computation. -/
def step (M : List Nat) (st : Nat × Nat × Nat × Nat) (i : Nat) :
    Nat × Nat × Nat × Nat :=
  let (a, b, c, d) := st
  let f := roundFun i b c d
  let tmp := add32 (add32 (add32 a f) (K.getD i 0)) (M.getD (gIdx i) 0)
  (d, add32 b (rotl32 tmp (S.getD i 0)), b, c)

/-- Little-endian 32-bit words of a 64-byte block. -/
def toWords : List Nat → List Nat
  | b0 :: b1 :: b2 :: b3 :: rest =>
      (b0 + 256 * b1 + 65536 * b2 + 16777216 * b3) :: toWords rest
  | _ => []

/-- Process one 64-byte block, updating the running state. -/
def processBlock (st : Nat × Nat × Nat × Nat) (block : List Nat) :
    Nat × Nat × Nat × Nat :=
  let M := toWords block
  let (a0, b0, c0, d0) := st
  let (a, b, c, d) := (List.range 64).foldl (step M) st
  (add32 a0 a, add32 b0 b, add32 c0 c, add32 d0 d)

/-- Split a byte list into 64-byte blocks; the fuel argument (any bound on the
number of blocks, here the byte count itself) keeps the recursion structural. -/
def chunks64Fuel : Nat → List Nat → List (List Nat)
  | 0, _ => []
  | _ + 1, [] => []
  | n + 1, x :: rest => ((x :: rest).take 64) :: chunks64Fuel n (rest.drop 63)

/-- Split a byte list into 64-byte blocks. -/
def chunks64 (l : List Nat) : List (List Nat) := chunks64Fuel l.length l

/-- MD5 padding: a `0x80` byte, zeros to 56 mod 64, then the 64-bit
little-endian bit length. -/
def pad (msg : List Nat) : List Nat :=
  let len := msg.length
  let bitLen := (8 * len) % 2 ^ 64
  let zeros := (119 - len % 64) % 64
  msg ++ [128] ++ List.replicate zeros 0 ++
    ((List.range 8).map fun i => bitLen / 2 ^ (8 * i) % 256)

/-- The four final state words of the MD5 computation. -/
def md5Words (msg : List Nat) : Nat × Nat × Nat × Nat :=
  (chunks64 (pad msg)).foldl processBlock
    (1732584193, 4023233417, 2562383102, 271733878)

/-- Little-endian bytes of a 32-bit word. -/
def wordBytes (w : Nat) : List Nat :=
  [w % 256, w / 256 % 256, w / 65536 % 256, w / 16777216 % 256]

/-- Lower-case hexadecimal digit. -/
def hexChar (n : Nat) : Char :=
  if n < 10 then Char.ofNat (48 + n) else Char.ofNat (87 + n)

/-- Two hexadecimal digits of one byte. -/
def byteHex (b : Nat) : List Char := [hexChar (b / 16), hexChar (b % 16)]

end MD5

/-- Python `hashlib.md5(bytes).hexdigest()`: the 32-character lower-case
hexadecimal MD5 digest of a byte list. -/
def md5Hex (msg : List Nat) : Str :=
  let (a, b, c, d) := MD5.md5Words msg
  (((MD5.wordBytes a ++ MD5.wordBytes b ++ MD5.wordBytes c ++ MD5.wordBytes d).map
      MD5.byteHex).flatten)

/-! ## Model of `multi_board_scraper.py` (`MultiJobBoardAgent`) -/

/-- Raw job dictionary built by the `scrape_*` adapter methods of
`MultiJobBoardAgent` (keys `title`, `company`, `location`, `salary`, `url`,
`posted`, `source`). Absent dictionary keys are embedded as the empty string,
matching the `job.get(key, "")` reads the agent performs. -/
structure RawJob where
  title : Str
  company : Str
  location : Str
  salary : Str
  url : Str
  posted : Str
  source : Str
deriving DecidableEq, Repr

/-- Row of the SQLite `jobs` table (`_init_database`). -/
structure JobRow where
  job_id : Str
  title : Str
  company : Str
  location : Str
  salary : Str
  job_type : Str
  posted_date : Str
  url : Str
  source : Str
  description : Str
  scraped_at : Str
  search_query : Str
deriving DecidableEq, Repr

/-- Row of the SQLite `scrape_runs` table (`_init_database`); the
autoincrement `run_id` is the position in the list. -/
structure RunRow where
  run_date : Str
  jobs_found : Nat
  new_jobs : Nat
  queries_processed : Nat
  sources_scraped : Str
deriving DecidableEq, Repr

/-- The SQLite database `jobs.db`: the `jobs` table (primary key `job_id`)
and the append-only `scrape_runs` table. -/
structure Store where
  jobs : List JobRow
  runs : List RunRow
deriving DecidableEq, Repr

/-- A store with both tables empty, as `_init_database` creates them. -/
def emptyStore : Store := ⟨[], []⟩

/-- `MultiJobBoardAgent._generate_job_id`: the MD5 hex digest of the string
`f"{job.get('title', '')}{job.get('company', '')}{source}"`. -/
def generate_job_id (job : RawJob) (source : Str) : Str :=
  md5Hex (utf8Encode (job.title ++ job.company ++ source))

/-- `MultiJobBoardAgent.is_duplicate`: `SELECT 1 FROM jobs WHERE job_id = ?`
and report whether a row came back. The returned store is the database after
the call; the body runs only a read-only SELECT, so it is the input store. -/
def is_duplicate (s : Store) (job_id : Str) : Bool × Store :=
  (s.jobs.any fun r => r.job_id == job_id, s)

/-- `MultiJobBoardAgent.save_job`: recompute the job id and
`INSERT OR IGNORE` the row (insert-if-absent on the `job_id` primary key).
The row stores an empty description, `datetime.now().isoformat()` (passed in
as `now`), and the originating search query, exactly as the INSERT lists
them. Returns the job id and the updated database. -/
def save_job (s : Store) (job : RawJob) (search_query : Str) (now : Str) :
    Str × Store :=
  let job_id := generate_job_id job job.source
  let row : JobRow :=
    { job_id := job_id, title := job.title, company := job.company,
      location := job.location, salary := job.salary, job_type := [],
      posted_date := job.posted, url := job.url, source := job.source,
      description := [], scraped_at := now, search_query := search_query }
  (job_id,
   { s with
     jobs := if s.jobs.any (fun r => r.job_id == job_id) then s.jobs
             else s.jobs ++ [row] })

/-- Outcome of one adapter call for one query title. Each `scrape_*` method
either returns parsed entries, returns `[]` after printing a warning when its
credentials are missing (`skipped`), or catches any exception from the HTTP
request or JSON parsing and returns `[]` (`error`). -/
inductive FetchOutcome where
  | ok (entries : List RawJob)
  | skipped
  | error
deriving DecidableEq, Repr

/-- List of jobs an adapter call hands back to the orchestrator: the caught
exception and the missing-credentials path both surface as `[]`. -/
def adapterReturn : FetchOutcome → List RawJob
  | .ok entries => entries
  | .skipped => []
  | .error => []

/-- The `all_jobs` list `run_daily_scrape` accumulates for one title: the
concatenation, in call order, of what each adapter call returned. The source
performs five such calls per title (`scrape_jsearch`, `scrape_adzuna`,
`scrape_google_jobs`, `scrape_usa_jobs`, `scrape_remotive`); `fetch` holds
the per-title outcome of each of those calls, in that order. -/
def jobsForTitle (fetch : List (Str → FetchOutcome)) (t : Str) : List RawJob :=
  (fetch.map fun f => adapterReturn (f t)).flatten

/-- In-flight accumulators of `run_daily_scrape`: the database connection
state plus `all_new_jobs`, `total_jobs_found` and `sources_used`. The Python
`sources_used` is a `set`; it is embedded as its insertion-ordered list of
distinct elements. -/
structure RunState where
  store : Store
  all_new_jobs : List RawJob
  total_jobs_found : Nat
  sources_used : List Str

/-- Add a source name to the `sources_used` set. -/
def addSource (used : List Str) (src : Str) : List Str :=
  if used.contains src then used else used ++ [src]

/-- Body of the per-job loop of `run_daily_scrape`: compute the id, add the
source to `sources_used`, and unless `is_duplicate` reports the id as seen,
`save_job` it and append it to `all_new_jobs`. -/
def processJob (t : Str) (now : Str) (st : RunState) (job : RawJob) :
    RunState :=
  let job_id := generate_job_id job job.source
  let used := addSource st.sources_used job.source
  if (is_duplicate st.store job_id).1 then
    { st with sources_used := used }
  else
    { st with
      store := (save_job st.store job t now).2,
      sources_used := used,
      all_new_jobs := st.all_new_jobs ++ [job] }

/-- Body of the per-title loop of `run_daily_scrape`: collect `all_jobs`
from the five adapter calls, add its length to `total_jobs_found`, then run
the per-job loop over it. -/
def processTitle (fetch : List (Str → FetchOutcome)) (now : Str)
    (st : RunState) (t : Str) : RunState :=
  let all_jobs := jobsForTitle fetch t
  let st1 :=
    { st with total_jobs_found := st.total_jobs_found + all_jobs.length }
  all_jobs.foldl (processJob t now) st1

/-- The summary dictionary `run_daily_scrape` returns. -/
structure RunSummary where
  run_date : Str
  total_jobs_found : Nat
  new_jobs_count : Nat
  new_jobs : List RawJob
  queries_processed : Nat
  sources_used : List Str
deriving DecidableEq, Repr

/-- The title loop of `run_daily_scrape`, starting from fresh accumulators. -/
def runLoop (fetch : List (Str → FetchOutcome)) (now : Str) (s : Store)
    (job_titles : List Str) : RunState :=
  job_titles.foldl (processTitle fetch now) ⟨s, [], 0, []⟩

/-- `MultiJobBoardAgent.run_daily_scrape`: run the title loop, INSERT one
`scrape_runs` row with the final accumulators, and return the summary
dictionary together with the final database state. `now` stands for the
`datetime.now().isoformat()` timestamps taken during the run. -/
def run_daily_scrape (s : Store) (job_titles : List Str)
    (fetch : List (Str → FetchOutcome)) (now : Str) : RunSummary × Store :=
  let st := runLoop fetch now s job_titles
  let record : RunRow :=
    { run_date := now, jobs_found := st.total_jobs_found,
      new_jobs := st.all_new_jobs.length,
      queries_processed := job_titles.length,
      sources_scraped := List.intercalate (str ", ") st.sources_used }
  ({ run_date := now, total_jobs_found := st.total_jobs_found,
     new_jobs_count := st.all_new_jobs.length, new_jobs := st.all_new_jobs,
     queries_processed := job_titles.length,
     sources_used := st.sources_used },
   { st.store with runs := st.store.runs ++ [record] })

/-! ## Model of `combined_scraper.py` (`CombinedJobScraper`) -/

/-- Parsed job dictionary built by `CombinedJobScraper.scrape_muse` and
`CombinedJobScraper.scrape_adzuna`. The Muse parse writes no `salary` key and
the Adzuna parse may write `None`; both are embedded as `none`. -/
structure CJob where
  id : Str
  title : Str
  company : Str
  location : Str
  salary : Option Str
  posted_date : Str
  url : Str
  description : Str
  source : Str
deriving DecidableEq, Repr

/-- Raw entry of The Muse jobs API, restricted to the fields the two Muse
parsers read: `id`, `name`, `company.name`, the `name` of each entry of
`locations`, `publication_date`, `refs.landing_page` and `contents`. A
missing `company.name` is embedded as the `"Unknown"` default the source
supplies; a missing `name`, location name, `publication_date`,
`landing_page` or `contents` as the `""` default. -/
structure MuseRawEntry where
  museId : Nat
  name : Str
  companyName : Str
  locationNames : List Str
  publication_date : Str
  landing_page : Str
  contents : Str
deriving DecidableEq, Repr

/-- Per-entry body of the parse loop in `CombinedJobScraper.scrape_muse`:
`", ".join` the location names (falling back to `"Not specified"` when the
join is empty, as `location_str or "Not specified"` does), slice the
contents to the first 500 characters, and tag the source. -/
def scrape_muse_parse (e : MuseRawEntry) : CJob :=
  let location_str := List.intercalate (str ", ") e.locationNames
  { id := str "muse_" ++ str (toString e.museId),
    title := e.name, company := e.companyName,
    location := if location_str = [] then str "Not specified" else location_str,
    salary := none, posted_date := e.publication_date,
    url := e.landing_page, description := e.contents.take 500,
    source := str "The Muse" }

/-- Deduplication key of `CombinedJobScraper.scrape_all`:
`f"{job['title']}_{job['company']}".lower()` — the source name is not part
of the key. -/
def dedupKey (j : CJob) : Str := lower (j.title ++ str "_" ++ j.company)

/-- The `unique_jobs` dictionary loop of `CombinedJobScraper.scrape_all`:
keep the first job seen for each key, in insertion order (Python dictionaries
preserve insertion order, and `list(unique_jobs.values())` reads them back in
that order). -/
def dedupeJobs (seen : List Str) : List CJob → List CJob
  | [] => []
  | j :: rest =>
      if seen.contains (dedupKey j) then dedupeJobs seen rest
      else j :: dedupeJobs (seen ++ [dedupKey j]) rest

/-- `CombinedJobScraper.scrape_all` after the two scrapes: concatenate the
Muse and Adzuna lists and deduplicate on the lower-cased `title_company`
key. -/
def scrape_all_combine (muse_jobs adzuna_jobs : List CJob) : List CJob :=
  dedupeJobs [] (muse_jobs ++ adzuna_jobs)

/-- The hard-coded `include_keywords` list of
`CombinedJobScraper.filter_and_save`. -/
def include_keywords : List Str :=
  [str "product manager", str "product management", str "pm",
   str "roadmap", str "platform", str "technical product"]

/-- The hard-coded `exclude_keywords` list of
`CombinedJobScraper.filter_and_save`. -/
def exclude_keywords : List Str :=
  [str "junior", str "entry level", str "intern",
   str "marketing product", str "sales"]

/-- The text a job is matched against in `filter_and_save`:
`f"{job['title']} {job['description']}".lower()`. -/
def jobText (j : CJob) : Str := lower (j.title ++ str " " ++ j.description)

/-- The per-job test of the `filter_and_save` loop:
`any(kw.lower() in text for kw in include_keywords) and not
any(kw.lower() in text for kw in exclude_keywords)`. -/
def passesFilter (inc exc : List Str) (j : CJob) : Bool :=
  (inc.any fun kw => containsStr (lower kw) (jobText j)) &&
  !(exc.any fun kw => containsStr (lower kw) (jobText j))

/-- The `filtered` list the `filter_and_save` loop builds, parameterized by
the two keyword lists the loop reads. -/
def filterJobs (inc exc : List Str) (jobs : List CJob) : List CJob :=
  jobs.filter (passesFilter inc exc)

/-- `CombinedJobScraper.filter_and_save` restricted to its filtering effect:
the loop instantiated with the two hard-coded keyword lists. -/
def filter_and_save_jobs (jobs : List CJob) : List CJob :=
  filterJobs include_keywords exclude_keywords jobs

/-! ## Model of `job_scraper.py` -/

/-- Job dictionary built by the flat `job_scraper.py` script (keys `title`,
`company`, `location`, `salary`, `url`, `description`, `source`). -/
structure JSJob where
  title : Str
  company : Str
  location : Str
  salary : Option Str
  url : Str
  description : Str
  source : Str
deriving DecidableEq, Repr

/-- Per-entry body of the Muse parse loop of `job_scraper.py` (the
`all_jobs.append` under "THE MUSE"): same field reads as
`CombinedJobScraper.scrape_muse` but the location falls back to `"Remote"`,
`salary` is `None`, and the description is sliced to 300 characters. -/
def js_muse_parse (e : MuseRawEntry) : JSJob :=
  let location_str := List.intercalate (str ", ") e.locationNames
  { title := e.name, company := e.companyName,
    location := if location_str = [] then str "Remote" else location_str,
    salary := none, url := e.landing_page,
    description := e.contents.take 300, source := str "The Muse" }

/-- Raw entry of the Adzuna search API, restricted to the fields the Adzuna
parse loop of `job_scraper.py` reads: `title`, `company.display_name`,
`location.display_name`, `salary_min`, `salary_max`, `redirect_url` and
`description`. Missing `title`, `redirect_url` or `description` are
embedded as the `""` default the source supplies, a missing
`company.display_name` as `"Unknown"`, a missing `location.display_name`
as `"Not specified"`. The salary bounds arrive as numbers or `None`; they
are embedded as the truncated integers `int(...)` produces, with `none`
for an absent value. -/
structure AdzunaRawEntry where
  title : Str
  companyDisplayName : Str
  locationDisplayName : Str
  salary_min : Option Nat
  salary_max : Option Nat
  redirect_url : Str
  description : Str
deriving DecidableEq, Repr

/-- Insert a comma after every third digit of a reversed digit list — the
grouping the Python format specifier `:,` performs. -/
def commaGroup : List Char → List Char
  | d1 :: d2 :: d3 :: d4 :: rest => d1 :: d2 :: d3 :: ',' :: commaGroup (d4 :: rest)
  | l => l

/-- Python `f"{n:,}"` for a nonnegative integer: decimal digits with a
comma between each group of three. -/
def intComma (n : Nat) : Str := (commaGroup (str (toString n)).reverse).reverse

/-- Per-entry body of the Adzuna parse loop of `job_scraper.py` (the
`all_jobs.append` under "ADZUNA"): the salary string
`f"${int(salary_min):,} - ${int(salary_max):,}"` is built only when both
bounds are truthy (present and nonzero), otherwise `salary` stays `None`;
the description is sliced to 300 characters. -/
def js_adzuna_parse (e : AdzunaRawEntry) : JSJob :=
  { title := e.title, company := e.companyDisplayName,
    location := e.locationDisplayName,
    salary :=
      match e.salary_min, e.salary_max with
      | some a, some b =>
          if a ≠ 0 ∧ b ≠ 0 then
            some (str "$" ++ intComma a ++ str " - $" ++ intComma b)
          else none
      | _, _ => none,
    url := e.redirect_url, description := e.description.take 300,
    source := str "Adzuna" }

/-! ## Concrete fixtures used by the counterexamples and witnesses -/

/-- The `job_id` column of the `jobs` table. -/
def jobIds (s : Store) : List Str := s.jobs.map (·.job_id)

/-- A raw entry with title `"Product Manager"`, company `"Acme"`, source
`"A"` and every other field empty. -/
def rawJobA : RawJob :=
  { title := str "Product Manager", company := str "Acme", location := [],
    salary := [], url := [], posted := [], source := str "A" }

/-- The same entry as `rawJobA` coming from source `"B"`. -/
def rawJobB : RawJob := { rawJobA with source := str "B" }

/-- The entry `rawJobA` with every identity field changed in letter case
only. -/
def rawJobLowerCase : RawJob :=
  { rawJobA with
    title := str "product manager", company := str "acme",
    source := str "a" }

/-- The entry `rawJobA` with a different location, all identity fields
unchanged. -/
def rawJobALoc : RawJob := { rawJobA with location := str "Willow Grove, PA" }

/-- A raw entry whose title and company are both empty. -/
def emptyTitleCompanyJob : RawJob :=
  { title := [], company := [], location := [], salary := [], url := [],
    posted := [], source := str "X" }

/-- Parsed combined-scraper job: title `"Product Manager"`, company
`"Acme"`, source `"A"`. -/
def cJobA : CJob :=
  { id := str "1", title := str "Product Manager", company := str "Acme",
    location := [], salary := none, posted_date := [], url := [],
    description := [], source := str "A" }

/-- The same parsed job as `cJobA` but from source `"B"`. -/
def cJobB : CJob := { cJobA with id := str "2", source := str "B" }

/-- A parsed combined-scraper job titled `"Junior Product Manager"`, with a
description that matches the include keyword `"product manager"`. -/
def cJobJunior : CJob :=
  { id := str "3", title := str "Junior Product Manager",
    company := str "Acme", location := [], salary := none, posted_date := [],
    url := [], description := str "product manager role", source := str "A" }

/-- A Muse entry whose contents are 350 characters long. -/
def muse350 : MuseRawEntry :=
  { museId := 1, name := str "Product Manager", companyName := str "Acme",
    locationNames := [], publication_date := [], landing_page := [],
    contents := List.replicate 350 'a' }

/-- A Muse entry whose contents are 12 characters long. -/
def museShort : MuseRawEntry :=
  { museId := 2, name := str "Lead PM", companyName := str "Acme",
    locationNames := [str "Remote"], publication_date := [],
    landing_page := [], contents := str "Lead PM role" }

/-- An Adzuna entry whose description is 13 characters long, with both
salary bounds present. -/
def adzShort : AdzunaRawEntry :=
  { title := str "Technical Product Manager", companyDisplayName := str "Acme",
    locationDisplayName := str "Willow Grove, PA", salary_min := some 90000,
    salary_max := some 120000, redirect_url := [],
    description := str "Great PM role" }

/-! ## Helper lemmas -/

/-- RFC 1321 test vector: digest of the empty message. -/
theorem md5Hex_empty : md5Hex [] = str "d41d8cd98f00b204e9800998ecf8427e" := by
  decide

/-- RFC 1321 test vector: digest of `"abc"`. -/
theorem md5Hex_abc :
    md5Hex (utf8Encode (str "abc")) = str "900150983cd24fb0d6963f7d28e17f72" := by
  decide

theorem leadsWith_iff (n : Str) : ∀ h : Str,
    leadsWith n h = true ↔ ∃ t, h = n ++ t := by
  induction n with
  | nil =>
      intro h
      simp [leadsWith]
  | cons c ns ih =>
      intro h
      cases h with
      | nil => simp [leadsWith]
      | cons x hs =>
          simp only [leadsWith, Bool.and_eq_true, beq_iff_eq, ih,
            List.cons_append, List.cons.injEq]
          constructor
          · rintro ⟨hc, t, ht⟩
            exact ⟨t, hc.symm, ht⟩
          · rintro ⟨t, hc, ht⟩
            exact ⟨hc.symm, t, ht⟩

theorem containsStr_iff (n : Str) : ∀ h : Str,
    containsStr n h = true ↔ ContainsSub h n := by
  intro h
  induction h with
  | nil =>
      simp only [containsStr, ContainsSub, List.isEmpty_iff]
      constructor
      · intro hn
        exact ⟨[], [], by simp [hn]⟩
      · rintro ⟨pre, post, hp⟩
        rcases List.append_eq_nil.mp hp.symm with ⟨h1, -⟩
        exact (List.append_eq_nil.mp h1).2
  | cons c hs ih =>
      simp only [containsStr, Bool.or_eq_true, leadsWith_iff, ih, ContainsSub]
      constructor
      · rintro (⟨t, ht⟩ | ⟨pre, post, hp⟩)
        · exact ⟨[], t, by simp [ht]⟩
        · exact ⟨c :: pre, post, by simp [hp]⟩
      · rintro ⟨pre, post, hp⟩
        cases pre with
        | nil => exact Or.inl ⟨post, by simpa using hp⟩
        | cons p ps =>
            simp only [List.cons_append, List.cons.injEq] at hp
            exact Or.inr ⟨ps, post, hp.2⟩

theorem is_duplicate_fst (s : Store) (jid : Str) :
    (is_duplicate s jid).1 = true ↔ jid ∈ jobIds s := by
  simp only [is_duplicate, jobIds, List.any_eq_true, beq_iff_eq, List.mem_map]

theorem save_job_runs (s : Store) (job : RawJob) (q now : Str) :
    (save_job s job q now).2.runs = s.runs := rfl

theorem mem_jobIds_save (s : Store) (job : RawJob) (q now : Str) (x : Str)
    (hx : x ∈ jobIds s) : x ∈ jobIds (save_job s job q now).2 := by
  simp only [save_job, jobIds] at *
  split
  · exact hx
  · simpa using Or.inl hx

theorem gid_mem_jobIds_save (s : Store) (job : RawJob) (q now : Str) :
    generate_job_id job job.source ∈ jobIds (save_job s job q now).2 := by
  simp only [save_job, jobIds]
  split
  · rename_i h
    rcases List.any_eq_true.mp h with ⟨r, hr, hid⟩
    exact List.mem_map.mpr ⟨r, hr, by simpa using hid⟩
  · simp

theorem processJob_runs (t now : Str) (st : RunState) (job : RawJob) :
    (processJob t now st job).store.runs = st.store.runs := by
  simp only [processJob]
  split
  · rfl
  · simp [save_job_runs]

theorem processJob_ids_mono (t now : Str) (st : RunState) (job : RawJob)
    (x : Str) (hx : x ∈ jobIds st.store) :
    x ∈ jobIds (processJob t now st job).store := by
  simp only [processJob]
  split
  · exact hx
  · simpa using mem_jobIds_save _ _ _ _ _ hx

theorem processJob_gid_mem (t now : Str) (st : RunState) (job : RawJob) :
    generate_job_id job job.source ∈ jobIds (processJob t now st job).store := by
  simp only [processJob]
  split
  · rename_i h
    exact (is_duplicate_fst _ _).mp h
  · simpa using gid_mem_jobIds_save _ _ _ _

theorem processJob_of_mem (t now : Str) (st : RunState) (job : RawJob)
    (h : generate_job_id job job.source ∈ jobIds st.store) :
    processJob t now st job =
      { st with sources_used := addSource st.sources_used job.source } := by
  simp only [processJob]
  rw [if_pos ((is_duplicate_fst _ _).mpr h)]

theorem foldJobs_runs (t now : Str) (jobs : List RawJob) : ∀ st : RunState,
    (jobs.foldl (processJob t now) st).store.runs = st.store.runs := by
  induction jobs with
  | nil => intro st; rfl
  | cons j rest ih =>
      intro st
      simpa [List.foldl_cons] using
        (ih (processJob t now st j)).trans (processJob_runs t now st j)

theorem foldJobs_ids_mono (t now : Str) (jobs : List RawJob) :
    ∀ (st : RunState) (x : Str), x ∈ jobIds st.store →
      x ∈ jobIds ((jobs.foldl (processJob t now) st).store) := by
  induction jobs with
  | nil => intro st x hx; exact hx
  | cons j rest ih =>
      intro st x hx
      exact ih (processJob t now st j) x (processJob_ids_mono t now st j x hx)

theorem foldJobs_gid_mem (t now : Str) (jobs : List RawJob) :
    ∀ (st : RunState) (j : RawJob), j ∈ jobs →
      generate_job_id j j.source ∈
        jobIds ((jobs.foldl (processJob t now) st).store) := by
  induction jobs with
  | nil => intro st j hj; cases hj
  | cons j0 rest ih =>
      intro st j hj
      rcases List.mem_cons.mp hj with hj | hj
      · subst hj
        exact foldJobs_ids_mono t now rest (processJob t now st j) _
          (processJob_gid_mem t now st j)
      · exact ih (processJob t now st j0) j hj

theorem foldJobs_of_all_mem (t now : Str) (jobs : List RawJob) :
    ∀ st : RunState, (∀ j ∈ jobs, generate_job_id j j.source ∈ jobIds st.store) →
      (jobs.foldl (processJob t now) st).store = st.store ∧
      (jobs.foldl (processJob t now) st).all_new_jobs = st.all_new_jobs ∧
      (jobs.foldl (processJob t now) st).total_jobs_found =
        st.total_jobs_found := by
  induction jobs with
  | nil => intro st _; exact ⟨rfl, rfl, rfl⟩
  | cons j0 rest ih =>
      intro st h
      have h0 := processJob_of_mem t now st j0 (h j0 (List.mem_cons_self j0 rest))
      have hrest : ∀ j ∈ rest,
          generate_job_id j j.source ∈ jobIds (processJob t now st j0).store := by
        intro j hj
        rw [h0]
        exact h j (List.mem_cons_of_mem j0 hj)
      have := ih (processJob t now st j0) hrest
      rw [h0] at this
      simpa [List.foldl_cons, h0] using this

theorem processTitle_runs (fetch : List (Str → FetchOutcome)) (now : Str)
    (st : RunState) (t : Str) :
    (processTitle fetch now st t).store.runs = st.store.runs := by
  simp only [processTitle]
  exact foldJobs_runs t now _ _

theorem processTitle_ids_mono (fetch : List (Str → FetchOutcome)) (now : Str)
    (st : RunState) (t : Str) (x : Str) (hx : x ∈ jobIds st.store) :
    x ∈ jobIds (processTitle fetch now st t).store := by
  simp only [processTitle]
  exact foldJobs_ids_mono t now _ _ x hx

theorem processTitle_gid_mem (fetch : List (Str → FetchOutcome)) (now : Str)
    (st : RunState) (t : Str) (j : RawJob) (hj : j ∈ jobsForTitle fetch t) :
    generate_job_id j j.source ∈ jobIds (processTitle fetch now st t).store := by
  simp only [processTitle]
  exact foldJobs_gid_mem t now _ _ j hj

theorem processTitle_of_all_mem (fetch : List (Str → FetchOutcome)) (now : Str)
    (st : RunState) (t : Str)
    (h : ∀ j ∈ jobsForTitle fetch t,
      generate_job_id j j.source ∈ jobIds st.store) :
    (processTitle fetch now st t).store = st.store ∧
    (processTitle fetch now st t).all_new_jobs = st.all_new_jobs := by
  simp only [processTitle]
  have := foldJobs_of_all_mem t now (jobsForTitle fetch t)
    { st with total_jobs_found := st.total_jobs_found +
        (jobsForTitle fetch t).length } h
  exact ⟨this.1, this.2.1⟩

theorem foldTitles_runs (fetch : List (Str → FetchOutcome)) (now : Str)
    (titles : List Str) : ∀ st : RunState,
    (titles.foldl (processTitle fetch now) st).store.runs = st.store.runs := by
  induction titles with
  | nil => intro st; rfl
  | cons t rest ih =>
      intro st
      exact (ih (processTitle fetch now st t)).trans
        (processTitle_runs fetch now st t)

theorem foldTitles_ids_mono (fetch : List (Str → FetchOutcome)) (now : Str)
    (titles : List Str) : ∀ (st : RunState) (x : Str), x ∈ jobIds st.store →
      x ∈ jobIds ((titles.foldl (processTitle fetch now) st).store) := by
  induction titles with
  | nil => intro st x hx; exact hx
  | cons t rest ih =>
      intro st x hx
      exact ih (processTitle fetch now st t) x
        (processTitle_ids_mono fetch now st t x hx)

theorem foldTitles_gid_mem (fetch : List (Str → FetchOutcome)) (now : Str)
    (titles : List Str) : ∀ (st : RunState) (t : Str), t ∈ titles →
      ∀ j ∈ jobsForTitle fetch t,
        generate_job_id j j.source ∈
          jobIds ((titles.foldl (processTitle fetch now) st).store) := by
  induction titles with
  | nil => intro st t ht; cases ht
  | cons t0 rest ih =>
      intro st t ht j hj
      rcases List.mem_cons.mp ht with ht | ht
      · subst ht
        exact foldTitles_ids_mono fetch now rest (processTitle fetch now st t) _
          (processTitle_gid_mem fetch now st t j hj)
      · exact ih (processTitle fetch now st t0) t ht j hj

theorem foldTitles_of_all_mem (fetch : List (Str → FetchOutcome)) (now : Str)
    (titles : List Str) : ∀ st : RunState,
    (∀ t ∈ titles, ∀ j ∈ jobsForTitle fetch t,
      generate_job_id j j.source ∈ jobIds st.store) →
    (titles.foldl (processTitle fetch now) st).store = st.store ∧
    (titles.foldl (processTitle fetch now) st).all_new_jobs =
      st.all_new_jobs := by
  induction titles with
  | nil => intro st _; exact ⟨rfl, rfl⟩
  | cons t0 rest ih =>
      intro st h
      have h0 := processTitle_of_all_mem fetch now st t0
        (h t0 (List.mem_cons_self t0 rest))
      have hrest : ∀ t ∈ rest, ∀ j ∈ jobsForTitle fetch t,
          generate_job_id j j.source ∈
            jobIds (processTitle fetch now st t0).store := by
        intro t ht j hj
        rw [h0.1]
        exact h t (List.mem_cons_of_mem t0 ht) j hj
      have := ih (processTitle fetch now st t0) hrest
      exact ⟨this.1.trans h0.1, this.2.trans h0.2⟩

/-! ## Claims -/

/-- C10: `is_duplicate` is read-only — for every store state and job
identity it returns exactly whether that identity is present in the `jobs`
table, and the database it leaves behind has both the `jobs` table and the
`scrape_runs` table unchanged. -/
theorem claim10_is_duplicate_readonly (s : Store) (jid : Str) :
    ((is_duplicate s jid).1 = true ↔ jid ∈ jobIds s) ∧
    (is_duplicate s jid).2.jobs = s.jobs ∧
    (is_duplicate s jid).2.runs = s.runs :=
  ⟨is_duplicate_fst s jid, rfl, rfl⟩

/-- C2 (counterexample): the claim says two jobs whose (title, company,
source) triples agree up to letter case get the same identity. The entries
`rawJobA` and `rawJobLowerCase` agree up to case on all three fields, yet
`_generate_job_id` — which hashes the concatenation without lower-casing —
gives them different digests. -/
theorem claim2_counterexample :
    (lower rawJobA.title = lower rawJobLowerCase.title ∧
     lower rawJobA.company = lower rawJobLowerCase.company ∧
     lower rawJobA.source = lower rawJobLowerCase.source) ∧
    generate_job_id rawJobA rawJobA.source ≠
      generate_job_id rawJobLowerCase rawJobLowerCase.source := by
  decide

/-- C2 (amended): the identity is a deterministic MD5 digest over the
concatenation of title, company and source name taken as written (no
lower-casing), so it is case-sensitive; it depends only on those three
fields, so two jobs with literally equal title and company hashed with the
same source name get equal identities whatever their other fields are. -/
theorem claim2_identity_deterministic_case_sensitive (j1 j2 : RawJob)
    (source : Str) (ht : j1.title = j2.title) (hc : j1.company = j2.company) :
    generate_job_id j1 source = generate_job_id j2 source ∧
    generate_job_id j1 source =
      md5Hex (utf8Encode (j1.title ++ j1.company ++ source)) := by
  constructor
  · simp [generate_job_id, ht, hc]
  · rfl

/-- C2 (witness): the amended theorem applied to two concrete entries that
differ only in location. -/
theorem claim2_witness :
    (rawJobA.title = rawJobALoc.title ∧ rawJobA.company = rawJobALoc.company) ∧
    (generate_job_id rawJobA (str "A") = generate_job_id rawJobALoc (str "A") ∧
     generate_job_id rawJobA (str "A") =
       md5Hex (utf8Encode (rawJobA.title ++ rawJobA.company ++ str "A"))) :=
  ⟨⟨rfl, rfl⟩,
   claim2_identity_deterministic_case_sensitive rawJobA rawJobALoc (str "A")
     rfl rfl⟩

/-- C3 (counterexample): the claim says that with one entry for
("Product Manager", "Acme") from source "A" and one from source "B" the run
output set has 2 jobs; but `scrape_all` in `combined_scraper.py`
deduplicates on the lower-cased `title_company` key, which ignores the
source, so its output keeps only 1 of the 2 entries. -/
theorem claim3_counterexample :
    (scrape_all_combine [cJobA] [cJobB]).length = 1 ∧
    ¬ (scrape_all_combine [cJobA] [cJobB]).length = 2 := by
  decide

/-- C3 (amended): source name is part of the identity for the
`multi_board_scraper.py` orchestrator (its `_generate_job_id` hashes
title+company+source): two entries with the same title "Product Manager"
and company "Acme" but sources "A" and "B" are both admitted there, and the
run reports 2 new jobs and persists 2 rows; `scrape_all` of
`combined_scraper.py`, which keys on title+company only, keeps just one. -/
theorem claim3_multi_board_admits_both_sources :
    (run_daily_scrape emptyStore [str "Product Manager"]
      [fun _ => FetchOutcome.ok [rawJobA], fun _ => FetchOutcome.ok [rawJobB]]
      []).1.new_jobs_count = 2 ∧
    (run_daily_scrape emptyStore [str "Product Manager"]
      [fun _ => FetchOutcome.ok [rawJobA], fun _ => FetchOutcome.ok [rawJobB]]
      []).2.jobs.length = 2 := by
  decide

/-- C8 (counterexample): the claim says every normalizer truncates the
description to 500 characters (whole description when shorter); the Muse
parse of `job_scraper.py` slices to 300, so a 350-character description is
stored neither whole nor as its first 500 characters. -/
theorem claim8_counterexample :
    muse350.contents.length = 350 ∧
    (js_muse_parse muse350).description.length = 300 ∧
    (js_muse_parse muse350).description ≠ muse350.contents ∧
    (js_muse_parse muse350).description ≠ muse350.contents.take 500 := by
  decide

/-- Sanity check of the salary formatting of the Adzuna parse in
`job_scraper.py`: both bounds present and nonzero give the comma-grouped
dollar range, matching the Python f-string output. -/
theorem js_adzuna_parse_salary_example :
    (js_adzuna_parse adzShort).salary = some (str "$90,000 - $120,000") := by
  decide

/-- C8 (amended): the Muse normalizer of `combined_scraper.py` stores the
first 500 characters of the raw description (the whole description when it
is at most 500 characters long), while both normalizers of
`job_scraper.py` — the Adzuna parse and the Muse parse — slice to 300
characters, not 500. -/
theorem claim8_truncation_bounds (e : MuseRawEntry) (a : AdzunaRawEntry) :
    (scrape_muse_parse e).description = e.contents.take 500 ∧
    (scrape_muse_parse e).description.length ≤ 500 ∧
    (e.contents.length ≤ 500 → (scrape_muse_parse e).description = e.contents) ∧
    (js_muse_parse e).description = e.contents.take 300 ∧
    (js_muse_parse e).description.length ≤ 300 ∧
    (e.contents.length ≤ 300 → (js_muse_parse e).description = e.contents) ∧
    (js_adzuna_parse a).description = a.description.take 300 ∧
    (js_adzuna_parse a).description.length ≤ 300 ∧
    (a.description.length ≤ 300 →
      (js_adzuna_parse a).description = a.description) := by
  refine ⟨rfl, ?_, ?_, rfl, ?_, ?_, rfl, ?_, ?_⟩
  · simp [scrape_muse_parse, List.length_take]
  · intro h
    simpa [scrape_muse_parse] using List.take_of_length_le h
  · simp [js_muse_parse, List.length_take]
  · intro h
    simpa [js_muse_parse] using List.take_of_length_le h
  · simp [js_adzuna_parse, List.length_take]
  · intro h
    simpa [js_adzuna_parse] using List.take_of_length_le h

/-- C8 (witness): the amended theorem applied to short descriptions (12
and 13 characters), which all three normalizers store whole. -/
theorem claim8_witness :
    (museShort.contents.length ≤ 500 ∧ museShort.contents.length ≤ 300 ∧
     adzShort.description.length ≤ 300) ∧
    ((scrape_muse_parse museShort).description = museShort.contents ∧
     (js_muse_parse museShort).description = museShort.contents ∧
     (js_adzuna_parse adzShort).description = adzShort.description) :=
  ⟨⟨by decide, by decide, by decide⟩,
   (claim8_truncation_bounds museShort adzShort).2.2.1 (by decide),
   (claim8_truncation_bounds museShort adzShort).2.2.2.2.2.1 (by decide),
   (claim8_truncation_bounds museShort adzShort).2.2.2.2.2.2.2.2 (by decide)⟩

/-- C9 (counterexample): the claim says an entry whose title and company
are both empty is discarded, never admitted or persisted; but
`run_daily_scrape` has no such discard — on a fresh store the all-empty
entry from source "X" is admitted (1 new job) and persisted (1 row). -/
theorem claim9_counterexample :
    (run_daily_scrape emptyStore [str "q"]
      [fun _ => FetchOutcome.ok [emptyTitleCompanyJob]] []).1.new_jobs_count
      = 1 ∧
    (run_daily_scrape emptyStore [str "q"]
      [fun _ => FetchOutcome.ok [emptyTitleCompanyJob]] []).2.jobs.length
      = 1 := by
  decide

/-- C4: intra-run deduplication keeps only the first occurrence — when one
adapter returns the same (previously unseen) entry twice in a single run,
only the first is admitted: the run output set is that one job, the
appended run record counts 1 new job, and its jobs-found count is 2. -/
theorem claim4_intra_run_dedup (s : Store) (t now : Str) (j : RawJob)
    (h : (is_duplicate s (generate_job_id j j.source)).1 = false) :
    (run_daily_scrape s [t] [fun _ => FetchOutcome.ok [j, j]] now).1.new_jobs
      = [j] ∧
    (run_daily_scrape s [t] [fun _ => FetchOutcome.ok [j, j]]
      now).1.new_jobs_count = 1 ∧
    (run_daily_scrape s [t] [fun _ => FetchOutcome.ok [j, j]]
      now).1.total_jobs_found = 2 ∧
    ∃ r : RunRow,
      (run_daily_scrape s [t] [fun _ => FetchOutcome.ok [j, j]] now).2.runs
        = s.runs ++ [r] ∧ r.new_jobs = 1 ∧ r.jobs_found = 2 := by
  have h' : (s.jobs.any fun r => r.job_id == generate_job_id j j.source)
      = false := h
  simp only [run_daily_scrape, runLoop, List.foldl_cons, List.foldl_nil,
    processTitle, jobsForTitle, List.map_cons, List.map_nil,
    List.flatten_cons, List.flatten_nil, adapterReturn, List.append_nil,
    List.length_cons, List.length_nil, processJob, is_duplicate, save_job,
    addSource, h', Bool.false_eq_true, if_false, List.any_append,
    List.any_cons, List.any_nil, beq_self_eq_true, Bool.false_or,
    Bool.or_false, if_true]
  exact ⟨rfl, rfl, trivial, ⟨_, rfl, rfl, rfl⟩⟩


/-- C4 (witness): the intra-run deduplication theorem applied to a fresh
store and the concrete entry `rawJobA` returned twice. -/
theorem claim4_witness :
    (is_duplicate emptyStore (generate_job_id rawJobA rawJobA.source)).1
      = false ∧
    ((run_daily_scrape emptyStore [str "q"]
        [fun _ => FetchOutcome.ok [rawJobA, rawJobA]] []).1.new_jobs
        = [rawJobA] ∧
     (run_daily_scrape emptyStore [str "q"]
        [fun _ => FetchOutcome.ok [rawJobA, rawJobA]] []).1.new_jobs_count
        = 1 ∧
     (run_daily_scrape emptyStore [str "q"]
        [fun _ => FetchOutcome.ok [rawJobA, rawJobA]] []).1.total_jobs_found
        = 2 ∧
     ∃ r : RunRow,
       (run_daily_scrape emptyStore [str "q"]
         [fun _ => FetchOutcome.ok [rawJobA, rawJobA]] []).2.runs
         = emptyStore.runs ++ [r] ∧ r.new_jobs = 1 ∧ r.jobs_found = 2) :=
  ⟨by decide,
   claim4_intra_run_dedup emptyStore (str "q") [] rawJobA (by decide)⟩

/-- Appending the run record is the only write `run_daily_scrape` performs
on the `scrape_runs` table. -/
theorem run_daily_scrape_runs (s : Store) (titles : List Str)
    (fetch : List (Str → FetchOutcome)) (now : Str) :
    (run_daily_scrape s titles fetch now).2.runs = s.runs ++
      [{ run_date := now,
         jobs_found := (runLoop fetch now s titles).total_jobs_found,
         new_jobs := (runLoop fetch now s titles).all_new_jobs.length,
         queries_processed := titles.length,
         sources_scraped := List.intercalate (str ", ")
           (runLoop fetch now s titles).sources_used }] := by
  have h : (runLoop fetch now s titles).store.runs = s.runs := by
    simp only [runLoop]
    exact foldTitles_runs fetch now titles ⟨s, [], 0, []⟩
  simp only [run_daily_scrape]
  rw [h]

/-- C5: adapter failures are absorbed, never propagated — every adapter
call hands the orchestrator a plain list (`[]` on error or skip), so a run
over outcomes in which failures occur equals the run over the absorbed
outcomes; and an adapter that fails on every call does not prevent a job
returned by another adapter from being admitted in the same run. -/
theorem claim5_adapter_failures_absorbed :
    (∀ (s : Store) (titles : List Str) (fetch : List (Str → FetchOutcome))
       (now : Str),
      run_daily_scrape s titles
        (fetch.map fun f => fun t => FetchOutcome.ok (adapterReturn (f t)))
        now
        = run_daily_scrape s titles fetch now) ∧
    (∀ (s : Store) (t now : Str) (j : RawJob),
      (is_duplicate s (generate_job_id j j.source)).1 = false →
        (run_daily_scrape s [t]
          [fun _ => FetchOutcome.error, fun _ => FetchOutcome.ok [j]]
          now).1.new_jobs = [j]) := by
  constructor
  · intro s titles fetch now
    have hjf : jobsForTitle
        (fetch.map fun f => fun t => FetchOutcome.ok (adapterReturn (f t)))
        = jobsForTitle fetch := by
      funext t
      simp [jobsForTitle, List.map_map, Function.comp_def, adapterReturn]
    have hpt : processTitle
        (fetch.map fun f => fun t => FetchOutcome.ok (adapterReturn (f t)))
        now = processTitle fetch now := by
      funext st t
      simp only [processTitle, hjf]
    simp only [run_daily_scrape, runLoop, hpt]
  · intro s t now j h
    have h' : (s.jobs.any fun r => r.job_id == generate_job_id j j.source)
        = false := h
    simp only [run_daily_scrape, runLoop, List.foldl_cons, List.foldl_nil,
      processTitle, jobsForTitle, List.map_cons, List.map_nil,
      List.flatten_cons, List.flatten_nil, adapterReturn, List.append_nil,
      List.nil_append, List.length_cons, List.length_nil, processJob,
      is_duplicate, save_job, addSource, h', Bool.false_eq_true, if_false,
      List.any_append, List.any_cons, List.any_nil, beq_self_eq_true,
      Bool.false_or, Bool.or_false, if_true]

/-- C5 (witness): with the first adapter failing on every call and the
second returning the fresh entry `rawJobA`, the run still admits
`rawJobA`. -/
theorem claim5_witness :
    (is_duplicate emptyStore (generate_job_id rawJobA rawJobA.source)).1
      = false ∧
    (run_daily_scrape emptyStore [str "q"]
      [fun _ => FetchOutcome.error, fun _ => FetchOutcome.ok [rawJobA]]
      []).1.new_jobs = [rawJobA] :=
  ⟨by decide,
   claim5_adapter_failures_absorbed.2 emptyStore (str "q") [] rawJobA
     (by decide)⟩

/-- C6: every invocation of `run_daily_scrape` appends exactly one row to
the `scrape_runs` table, and a run in which every adapter call is skipped
or fails still completes and appends a run record counting 0 new jobs. -/
theorem claim6_one_run_record_per_invocation (s : Store) (titles : List Str)
    (fetch : List (Str → FetchOutcome)) (now : Str) :
    (∃ r : RunRow,
      (run_daily_scrape s titles fetch now).2.runs = s.runs ++ [r]) ∧
    ((∀ f ∈ fetch, ∀ t : Str,
        f t = FetchOutcome.skipped ∨ f t = FetchOutcome.error) →
      (run_daily_scrape s titles fetch now).1.new_jobs_count = 0 ∧
      ∃ r : RunRow,
        (run_daily_scrape s titles fetch now).2.runs = s.runs ++ [r] ∧
        r.new_jobs = 0) := by
  constructor
  · exact ⟨_, run_daily_scrape_runs s titles fetch now⟩
  · intro hfail
    have hjt : ∀ t0 : Str, jobsForTitle fetch t0 = [] := by
      intro t0
      simp only [jobsForTitle]
      refine List.flatten_eq_nil_iff.mpr ?_
      intro x hx
      rcases List.mem_map.mp hx with ⟨f, hf, rfl⟩
      rcases hfail f hf t0 with hc | hc <;> rw [hc] <;> rfl
    have hmem : ∀ t ∈ titles, ∀ j ∈ jobsForTitle fetch t,
        generate_job_id j j.source ∈
          jobIds ((⟨s, [], 0, []⟩ : RunState).store) := by
      intro t ht j hj
      rw [hjt t] at hj
      exact absurd hj (List.not_mem_nil j)
    have hfold := foldTitles_of_all_mem fetch now titles ⟨s, [], 0, []⟩ hmem
    have hnew : (runLoop fetch now s titles).all_new_jobs = [] := by
      simp only [runLoop]
      exact hfold.2
    constructor
    · show (runLoop fetch now s titles).all_new_jobs.length = 0
      rw [hnew]
      rfl
    · refine ⟨_, run_daily_scrape_runs s titles fetch now, ?_⟩
      show (runLoop fetch now s titles).all_new_jobs.length = 0
      rw [hnew]
      rfl

/-- C6 (witness): a single adapter failing on every call still produces a
complete run with one appended record counting 0 new jobs. -/
theorem claim6_witness :
    (run_daily_scrape emptyStore [str "q"] [fun _ => FetchOutcome.error]
      []).1.new_jobs_count = 0 ∧
    ∃ r : RunRow,
      (run_daily_scrape emptyStore [str "q"] [fun _ => FetchOutcome.error]
        []).2.runs = emptyStore.runs ++ [r] ∧ r.new_jobs = 0 :=
  (claim6_one_run_record_per_invocation emptyStore [str "q"]
      [fun _ => FetchOutcome.error] []).2
    (by
      intro f hf t
      simp only [List.mem_singleton] at hf
      subst hf
      exact Or.inr rfl)

/-- C9 (amended): entries whose title and company are both empty are not
discarded — the identity is computed all the same (it degenerates to the
digest of the source name alone) and, when that identity is not yet in the
store, the entry is admitted and persisted like any other. -/
theorem claim9_empty_identity_not_discarded (e : RawJob) (src : Str)
    (s : Store) (t now : Str) (ht : e.title = []) (hc : e.company = []) :
    generate_job_id e src = md5Hex (utf8Encode src) ∧
    ((is_duplicate s (generate_job_id e e.source)).1 = false →
      (run_daily_scrape s [t] [fun _ => FetchOutcome.ok [e]]
        now).1.new_jobs_count = 1 ∧
      (run_daily_scrape s [t] [fun _ => FetchOutcome.ok [e]]
        now).2.jobs.length = s.jobs.length + 1) := by
  constructor
  · simp [generate_job_id, ht, hc]
  · intro h
    have h' : (s.jobs.any fun r => r.job_id == generate_job_id e e.source)
        = false := h
    simp only [run_daily_scrape, runLoop, List.foldl_cons, List.foldl_nil,
      processTitle, jobsForTitle, List.map_cons, List.map_nil,
      List.flatten_cons, List.flatten_nil, adapterReturn, List.append_nil,
      List.length_cons, List.length_nil, processJob, is_duplicate, save_job,
      addSource, h', Bool.false_eq_true, if_false, List.any_append,
      List.any_cons, List.any_nil, beq_self_eq_true, Bool.false_or,
      Bool.or_false, if_true, List.length_append]
    refine ⟨?_, ?_⟩ <;> trivial

/-- C9 (witness): the amended theorem applied to the concrete all-empty
entry from source "X" on a fresh store. -/
theorem claim9_witness :
    (emptyTitleCompanyJob.title = [] ∧ emptyTitleCompanyJob.company = [] ∧
     (is_duplicate emptyStore
       (generate_job_id emptyTitleCompanyJob emptyTitleCompanyJob.source)).1
       = false) ∧
    (generate_job_id emptyTitleCompanyJob (str "X")
       = md5Hex (utf8Encode (str "X")) ∧
     (run_daily_scrape emptyStore [str "q"]
        [fun _ => FetchOutcome.ok [emptyTitleCompanyJob]]
        []).1.new_jobs_count = 1 ∧
     (run_daily_scrape emptyStore [str "q"]
        [fun _ => FetchOutcome.ok [emptyTitleCompanyJob]]
        []).2.jobs.length = emptyStore.jobs.length + 1) :=
  ⟨⟨rfl, rfl, by decide⟩,
   (claim9_empty_identity_not_discarded emptyTitleCompanyJob (str "X")
      emptyStore (str "q") [] rfl rfl).1,
   (claim9_empty_identity_not_discarded emptyTitleCompanyJob (str "X")
      emptyStore (str "q") [] rfl rfl).2 (by decide)⟩

/-- Lower-casing distributes over concatenation. -/
theorem lower_append (a b : Str) : lower (a ++ b) = lower a ++ lower b := by
  simp [lower]

/-- Membership in the keyword-filter output, characterized by substring
containment over the case-folded title-plus-description text. -/
theorem mem_filterJobs_iff (inc exc : List Str) (jobs : List CJob)
    (j : CJob) :
    j ∈ filterJobs inc exc jobs ↔
      j ∈ jobs ∧ (∃ kw ∈ inc, ContainsSub (jobText j) (lower kw)) ∧
        ¬ ∃ kw ∈ exc, ContainsSub (jobText j) (lower kw) := by
  simp only [filterJobs, List.mem_filter, passesFilter, Bool.and_eq_true,
    Bool.not_eq_true', List.any_eq_false, List.any_eq_true, containsStr_iff,
    not_exists, not_and]

/-- C7: a job is in the filter output iff it is in the input and the
case-folded concatenation of its title and description contains at least
one include keyword and none of the exclude keywords; in particular a job
titled "Junior Product Manager" is never in the output when "junior" is in
the exclude list (as it is in the hard-coded `exclude_keywords`),
regardless of include-keyword matches. -/
theorem claim7_filter_rule :
    (∀ (inc exc : List Str) (jobs : List CJob) (j : CJob),
      j ∈ filterJobs inc exc jobs ↔
        j ∈ jobs ∧ (∃ kw ∈ inc, ContainsSub (jobText j) (lower kw)) ∧
          ¬ ∃ kw ∈ exc, ContainsSub (jobText j) (lower kw)) ∧
    (∀ (inc exc : List Str) (jobs : List CJob) (j : CJob),
      str "junior" ∈ exc → j.title = str "Junior Product Manager" →
        j ∉ filterJobs inc exc jobs) ∧
    str "junior" ∈ exclude_keywords := by
  refine ⟨mem_filterJobs_iff, ?_, by decide⟩
  intro inc exc jobs j hex htitle hmem
  rcases (mem_filterJobs_iff inc exc jobs j).mp hmem with ⟨-, -, hnot⟩
  apply hnot
  refine ⟨str "junior", hex, ?_⟩
  have hl : lower (str "junior") = str "junior" := by decide
  rw [hl]
  have h1 : jobText j = lower j.title ++ lower (str " ") ++
      lower j.description := by
    simp [jobText, lower_append]
  rw [htitle] at h1
  have hJPM : lower (str "Junior Product Manager")
      = str "junior" ++ str " product manager" := by decide
  rw [hJPM] at h1
  refine ⟨[], str " product manager" ++ lower (str " ") ++
    lower j.description, ?_⟩
  rw [h1]
  simp [List.append_assoc]

/-- C7 (witness): the concrete job `cJobJunior`, whose description matches
the include keyword "product manager", is still excluded by the hard-coded
keyword lists because its title carries "Junior". -/
theorem claim7_witness :
    (str "junior" ∈ exclude_keywords ∧
     cJobJunior.title = str "Junior Product Manager") ∧
    cJobJunior ∉ filterJobs include_keywords exclude_keywords [cJobJunior] :=
  ⟨⟨by decide, rfl⟩,
   claim7_filter_rule.2.1 include_keywords exclude_keywords [cJobJunior]
     cJobJunior (by decide) rfl⟩

/-- C1: cross-run idempotence of admission — running `run_daily_scrape` a
second time with every adapter returning exactly the same raw entries (the
same `fetch` outcomes) admits 0 new jobs, and the persisted `jobs` table is
unchanged by the second run (in particular its size is unchanged), while
the first run admitted whatever number it reported. -/
theorem claim1_cross_run_idempotence (s : Store) (titles : List Str)
    (fetch : List (Str → FetchOutcome)) (n1 n2 : Str) :
    (run_daily_scrape (run_daily_scrape s titles fetch n1).2 titles fetch
      n2).1.new_jobs_count = 0 ∧
    (run_daily_scrape (run_daily_scrape s titles fetch n1).2 titles fetch
      n2).2.jobs = (run_daily_scrape s titles fetch n1).2.jobs := by
  have hmem : ∀ t ∈ titles, ∀ j ∈ jobsForTitle fetch t,
      generate_job_id j j.source ∈
        jobIds ((⟨(run_daily_scrape s titles fetch n1).2, [], 0, []⟩ :
          RunState).store) := by
    intro t ht j hj
    exact foldTitles_gid_mem fetch n1 titles ⟨s, [], 0, []⟩ t ht j hj
  have h2 := foldTitles_of_all_mem fetch n2 titles
    ⟨(run_daily_scrape s titles fetch n1).2, [], 0, []⟩ hmem
  constructor
  · show (runLoop fetch n2 (run_daily_scrape s titles fetch n1).2
      titles).all_new_jobs.length = 0
    have hn : (runLoop fetch n2 (run_daily_scrape s titles fetch n1).2
        titles).all_new_jobs = [] := h2.2
    rw [hn]
    rfl
  · show (runLoop fetch n2 (run_daily_scrape s titles fetch n1).2
      titles).store.jobs = (run_daily_scrape s titles fetch n1).2.jobs
    have hs : (runLoop fetch n2 (run_daily_scrape s titles fetch n1).2
        titles).store = (run_daily_scrape s titles fetch n1).2 := h2.1
    rw [hs]
